import Mathlib

/-!
Verification of the bookstore REST API (advanced-api-project):
a shallow embedding of the Author/Book data model (src/api/models.py),
the serializers (src/advanced-api-project/api/serializers.py) and the
list/detail/create/update/delete views with their filter, search and
ordering backends (src/advanced-api-project/api/views.py).

The record store is modelled as in-memory lists in insertion order
(system-assigned auto-incrementing identifiers, so insertion order is
ascending identifier order).  The three list backends declared on
`BookListView` are embedded with the semantics the framework gives the
declared configuration:
  * the filter backend (`filterset_fields = ["title", "author",
    "publication_year"]`) keeps records whose field equals the parameter
    value exactly;
  * the search backend (`search_fields = ["title", "author__name"]`)
    splits the search parameter on whitespace and commas into terms and
    keeps records where every term occurs case-insensitively in the
    title or the related author's name;
  * the ordering backend (`ordering_fields = ["title",
    "publication_year"]`, default `ordering = ["title"]`) splits the
    ordering parameter on commas, drops unrecognized entries, and falls
    back to the default ordering when none remain.  The program's
    ordering contract is only "some permutation of the records, sorted
    by the effective keys" (`orderStageAdmissible`): the view adds no
    identifier key and SQL ORDER BY fixes no order among equal keys.
    The executable `orderStage` linearizes that contract as a stable
    sort over the store's retrieval order — one admissible output, not
    a guarantee the program makes.
-/

/-- Author model (src/api/models.py): system-assigned id and a name. -/
structure Author where
  id : Nat
  name : String
deriving DecidableEq, Repr

/-- Book model (src/api/models.py): id, title, publication_year (integer),
and a foreign key to its Author. -/
structure Book where
  id : Nat
  title : String
  publication_year : Int
  author : Nat
deriving DecidableEq, Repr

/-- The record store: authors and books in insertion order. -/
structure Store where
  authors : List Author
  books : List Book
deriving DecidableEq, Repr

/-- Output of BookSerializer: flat, all four fields, author as its id. -/
structure SerializedBook where
  id : Nat
  title : String
  publication_year : Int
  author : Nat
deriving DecidableEq, Repr

/-- Output of AuthorSerializer: id, name, and the nested serialized books. -/
structure SerializedAuthor where
  id : Nat
  name : String
  books : List SerializedBook
deriving DecidableEq, Repr

/-- The caller's authentication state. -/
inductive Identity where
  | anonymous
  | authenticated
deriving DecidableEq, Repr

/-- Error taxonomy of the API layer.  `badQuery` appears in the spec's
taxonomy; the embedded views never produce it. -/
inductive ApiError where
  | authenticationRequired
  | notFound
  | validationFailed (field : String) (msg : String)
  | badQuery (field : String)
deriving DecidableEq, Repr

/-- Incoming candidate fields for Book create/update. -/
structure BookCandidate where
  title : String
  publication_year : Int
  author : Nat
deriving DecidableEq, Repr

/-- Recognized list query parameters, already coerced to their field types
(author and publication_year as integers, per the filterset). -/
structure QueryParams where
  title : Option String := none
  author : Option Nat := none
  publication_year : Option Int := none
  search : Option String := none
  ordering : Option String := none
deriving DecidableEq, Repr

/-! ### Case-insensitive substring matching (the `icontains` lookup) -/

/-- ASCII lower-casing on code points (the case folding `icontains`
applies to these records). -/
def lowerNat (n : Nat) : Nat :=
  if 65 ≤ n ∧ n ≤ 90 then n + 32 else n

/-- Case-insensitive character equality. -/
def eqCI (a b : Char) : Bool :=
  lowerNat a.toNat == lowerNat b.toNat

/-- `beginsWith n h` : `n` is a case-insensitive initial segment of `h`. -/
def beginsWith : List Char → List Char → Bool
  | [], _ => true
  | _ :: _, [] => false
  | a :: as, b :: bs => eqCI a b && beginsWith as bs

/-- `occursIn n h` : `n` occurs contiguously (case-insensitively) in `h`. -/
def occursIn (n : List Char) : List Char → Bool
  | [] => n.isEmpty
  | c :: cs => beginsWith n (c :: cs) || occursIn n cs

/-- Case-insensitive substring test, the `icontains` lookup. -/
def containsCI (hay needle : String) : Bool :=
  occursIn needle.data hay.data

/-! ### Serialization layer (serializers.py) -/

/-- BookSerializer: all four fields, the author as its primary key. -/
def serializeBook (b : Book) : SerializedBook :=
  { id := b.id, title := b.title, publication_year := b.publication_year
    author := b.author }

/-- AuthorSerializer: id, name, and the author's books (the reverse
related manager, in the store's retrieval order) each serialized by
BookSerializer. -/
def serializeAuthor (st : Store) (a : Author) : SerializedAuthor :=
  { id := a.id, name := a.name
    books := (st.books.filter (fun b => b.author == a.id)).map serializeBook }

/-! ### Validation layer (serializers.py) -/

/-- BookSerializer.validate_publication_year: reject years after the
current year.  `currentYear` stands for `datetime.date.today().year`. -/
def validate_publication_year (currentYear : Int) (value : Int) :
    Except String Int :=
  if value > currentYear then
    .error "Publication year cannot be in the future."
  else
    .ok value

/-! ### Filter stage (DjangoFilterBackend, filterset_fields) -/

/-- Exact-match test for the three filterset fields present in the
parameters. -/
def filterPred (p : QueryParams) (b : Book) : Bool :=
  (match p.title with | none => true | some t => b.title == t) &&
  (match p.author with | none => true | some a => b.author == a) &&
  (match p.publication_year with
    | none => true
    | some y => b.publication_year == y)

/-- The filter stage keeps the books matching every present filter field. -/
def filterStage (p : QueryParams) (books : List Book) : List Book :=
  books.filter (filterPred p)

/-! ### Search stage (SearchFilter, search_fields) -/

/-- Characters the search backend treats as term separators: the backend
replaces commas with whitespace and then splits on whitespace. -/
def isTermSep (c : Char) : Bool :=
  c == ' ' || c == ',' || c == '\t' || c == '\n' || c == '\r'

/-- Split into maximal separator-free runs, dropping empty pieces; `cur`
accumulates the current run in reverse. -/
def splitTermsAux : List Char → List Char → List String
  | [], cur => if cur.isEmpty then [] else [String.mk cur.reverse]
  | c :: cs, cur =>
      if isTermSep c then
        if cur.isEmpty then splitTermsAux cs []
        else String.mk cur.reverse :: splitTermsAux cs []
      else splitTermsAux cs (c :: cur)

/-- The search backend turns the raw parameter into terms: commas become
whitespace, then split on whitespace, dropping empty pieces. -/
def getSearchTerms (v : String) : List String :=
  splitTermsAux v.data []

/-- Name of the book's related author, if its id resolves. -/
def authorNameOf (authors : List Author) (b : Book) : Option String :=
  (authors.find? (fun a => a.id == b.author)).map (fun a => a.name)

/-- One search term matches a book when it occurs case-insensitively in
the title or in the related author's name (search_fields). -/
def matchesTerm (authors : List Author) (t : String) (b : Book) : Bool :=
  containsCI b.title t ||
    (match authorNameOf authors b with
      | none => false
      | some n => containsCI n t)

/-- The search stage: each term restricts the running result set, so a
record survives only if every term matches it. -/
def searchStage (authors : List Author) (search : Option String)
    (books : List Book) : List Book :=
  match search with
  | none => books
  | some v =>
      (getSearchTerms v).foldl
        (fun bs t => bs.filter (matchesTerm authors t)) books

/-! ### Ordering stage (OrderingFilter, ordering_fields, ordering) -/

/-- The two recognized ordering fields. -/
inductive OrderKey where
  | title
  | publicationYear
deriving DecidableEq, Repr

/-- One ordering term: a recognized field, possibly descending. -/
structure OrderTerm where
  key : OrderKey
  desc : Bool
deriving DecidableEq, Repr

/-- Parse one comma-separated entry of the ordering parameter; entries
outside `ordering_fields` (with optional leading dash) are unrecognized. -/
def parseOrderTerm (s : String) : Option OrderTerm :=
  if s = "title" then some ⟨.title, false⟩
  else if s = "-title" then some ⟨.title, true⟩
  else if s = "publication_year" then some ⟨.publicationYear, false⟩
  else if s = "-publication_year" then some ⟨.publicationYear, true⟩
  else none

/-- Whitespace for trimming ordering entries. -/
def isSpace (c : Char) : Bool :=
  c == ' ' || c == '\t' || c == '\n' || c == '\r'

/-- Strip leading and trailing whitespace. -/
def trimChars (l : List Char) : List Char :=
  ((l.dropWhile isSpace).reverse.dropWhile isSpace).reverse

/-- String-level trim. -/
def trimStr (s : String) : String :=
  String.mk (trimChars s.data)

/-- Split on commas, keeping empty pieces; `cur` accumulates in reverse. -/
def splitCommaAux : List Char → List Char → List String
  | [], cur => [String.mk cur.reverse]
  | c :: cs, cur =>
      if c == ',' then String.mk cur.reverse :: splitCommaAux cs []
      else splitCommaAux cs (c :: cur)

/-- Split the raw ordering parameter on commas and trim each entry. -/
def splitOrdering (s : String) : List String :=
  (splitCommaAux s.data []).map trimStr

/-- The ordering backend keeps only the recognized entries. -/
def removeInvalidFields (entries : List String) : List OrderTerm :=
  entries.filterMap parseOrderTerm

/-- The default ordering declared on the view: ascending title. -/
def defaultOrdering : List OrderTerm := [⟨.title, false⟩]

/-- The effective ordering: the recognized entries of the parameter, or
the view default when the parameter is absent or yields none. -/
def getOrdering (p : Option String) : List OrderTerm :=
  match p with
  | none => defaultOrdering
  | some s =>
      match removeInvalidFields (splitOrdering s) with
      | [] => defaultOrdering
      | t :: ts => t :: ts

/-- Three-way comparison for characters, in code-point order. -/
def cmpChar (a b : Char) : Ordering :=
  if a < b then .lt else if b < a then .gt else .eq

/-- Lexicographic three-way comparison on character lists. -/
def cmpCharList : List Char → List Char → Ordering
  | [], [] => .eq
  | [], _ :: _ => .lt
  | _ :: _, [] => .gt
  | a :: as, b :: bs => (cmpChar a b).then (cmpCharList as bs)

/-- Three-way comparison for strings: lexicographic code-point order (the
store's binary text collation). -/
def cmpStr (a b : String) : Ordering :=
  cmpCharList a.data b.data

/-- Three-way comparison for integers. -/
def cmpInt (a b : Int) : Ordering :=
  if a < b then .lt else if b < a then .gt else .eq

/-- Comparison under one ordering term. -/
def cmpTerm (t : OrderTerm) (a b : Book) : Ordering :=
  let c := match t.key with
    | .title => cmpStr a.title b.title
    | .publicationYear => cmpInt a.publication_year b.publication_year
  if t.desc then c.swap else c

/-- Lexicographic comparison across the ordering terms. -/
def cmpTerms (ts : List OrderTerm) (a b : Book) : Ordering :=
  match ts with
  | [] => .eq
  | t :: ts => (cmpTerm t a b).then (cmpTerms ts a b)

/-- Boolean "not after" relation induced by the ordering terms. -/
def leTerms (ts : List OrderTerm) (a b : Book) : Bool :=
  match cmpTerms ts a b with
  | .gt => false
  | _ => true

/-- Stable insertion: `x` goes in front of the first element it is `le`
to, so elements comparing equal keep their retrieval order. -/
def insertB (le : Book → Book → Bool) (x : Book) : List Book → List Book
  | [] => [x]
  | y :: ys => if le x y then x :: y :: ys else y :: insertB le x ys

/-- Stable insertion sort. -/
def isortBy (le : Book → Book → Bool) : List Book → List Book
  | [] => []
  | x :: xs => insertB le x (isortBy le xs)

/-- The ordering stage of the executable model: a stable sort by the
effective ordering terms.  This is one admissible linearization of the
program's contract (`orderStageAdmissible`); the program itself adds no
identifier key and fixes no order among records with equal keys. -/
def orderStage (ts : List OrderTerm) (books : List Book) : List Book :=
  isortBy (leTerms ts) books

/-- The ordering contract the program actually provides: the output is
some permutation of the incoming records that is sorted by the effective
ordering keys.  Nothing more is guaranteed — in particular no tie order
among records whose keys compare equal. -/
def orderStageAdmissible (ts : List OrderTerm) (input output : List Book) :
    Prop :=
  output.Perm input ∧ output.Pairwise (fun a b => cmpTerms ts a b ≠ .gt)

/-- The key values compared under one ordering term are equal
(direction-independent). -/
def termKeyEq (t : OrderTerm) (a b : Book) : Prop :=
  match t.key with
  | .title => a.title = b.title
  | .publicationYear => a.publication_year = b.publication_year

/-- The first book sorts strictly before the second under one ordering
term (descending terms flip the direction). -/
def termKeyLt (t : OrderTerm) (a b : Book) : Prop :=
  match t.key, t.desc with
  | .title, false => a.title < b.title
  | .title, true => b.title < a.title
  | .publicationYear, false => a.publication_year < b.publication_year
  | .publicationYear, true => b.publication_year < a.publication_year

/-! ### The list query pipeline and the endpoint operations -/

/-- The query pipeline of BookListView: the declared backends applied in
order — filter, then search, then ordering. -/
def pipeline (authors : List Author) (p : QueryParams)
    (books : List Book) : List Book :=
  orderStage (getOrdering p.ordering)
    (searchStage authors p.search (filterStage p books))

/-- List operation (BookListView): read permitted for any identity; runs
the pipeline and serializes each record. -/
def listBooks (_i : Identity) (p : QueryParams) (st : Store) :
    Except ApiError (List SerializedBook) :=
  .ok ((pipeline st.authors p st.books).map serializeBook)

/-- Retrieve operation (BookDetailView): read permitted for any identity;
404 when the id does not resolve. -/
def retrieveBook (_i : Identity) (bid : Nat) (st : Store) :
    Except ApiError SerializedBook :=
  match st.books.find? (fun b => b.id == bid) with
  | none => .error .notFound
  | some b => .ok (serializeBook b)

/-- Serializer-level validation of a Book candidate: title must be
non-blank within 200 characters, the author id must resolve, and
publication_year passes validate_publication_year. -/
def validateCandidate (currentYear : Int) (st : Store)
    (cand : BookCandidate) : Except ApiError BookCandidate :=
  if cand.title = "" then
    .error (.validationFailed "title" "This field may not be blank.")
  else if 200 < cand.title.length then
    .error (.validationFailed "title"
      "Ensure this field has no more than 200 characters.")
  else if (st.authors.find? (fun a => a.id == cand.author)).isNone then
    .error (.validationFailed "author" "Invalid pk - object does not exist.")
  else
    match validate_publication_year currentYear cand.publication_year with
    | .error msg => .error (.validationFailed "publication_year" msg)
    | .ok _ => .ok cand

/-- Next system-assigned identifier: one past the largest in use. -/
def nextBookId (st : Store) : Nat :=
  (st.books.foldr (fun b m => max b.id m) 0) + 1

/-- Create operation (BookCreateView, IsAuthenticated): the gate runs
before validation; success appends the new record and returns it
serialized. -/
def createBook (currentYear : Int) (i : Identity) (cand : BookCandidate)
    (st : Store) : Except ApiError (Store × SerializedBook) :=
  match i with
  | .anonymous => .error .authenticationRequired
  | .authenticated =>
      match validateCandidate currentYear st cand with
      | .error e => .error e
      | .ok cand =>
          let b : Book :=
            { id := nextBookId st, title := cand.title
              publication_year := cand.publication_year
              author := cand.author }
          .ok ({ st with books := st.books ++ [b] }, serializeBook b)

/-- Update operation (BookUpdateView, IsAuthenticated): gate, then lookup,
then validation; success rewrites the record in place. -/
def updateBook (currentYear : Int) (i : Identity) (bid : Nat)
    (cand : BookCandidate) (st : Store) :
    Except ApiError (Store × SerializedBook) :=
  match i with
  | .anonymous => .error .authenticationRequired
  | .authenticated =>
      match st.books.find? (fun b => b.id == bid) with
      | none => .error .notFound
      | some _ =>
          match validateCandidate currentYear st cand with
          | .error e => .error e
          | .ok cand =>
              let b : Book :=
                { id := bid, title := cand.title
                  publication_year := cand.publication_year
                  author := cand.author }
              .ok ({ st with
                      books := st.books.map
                        (fun x => if x.id == bid then b else x) },
                serializeBook b)

/-- Delete operation (BookDeleteView, IsAuthenticated): gate, then lookup,
then the row with that primary key is removed. -/
def deleteBook (i : Identity) (bid : Nat) (st : Store) :
    Except ApiError Store :=
  match i with
  | .anonymous => .error .authenticationRequired
  | .authenticated =>
      match st.books.find? (fun b => b.id == bid) with
      | none => .error .notFound
      | some _ => .ok { st with books := st.books.filter (fun b => b.id != bid) }

/-- The store the caller holds after a create: updated on success,
untouched on any rejection. -/
def storeAfterCreate (currentYear : Int) (i : Identity)
    (cand : BookCandidate) (st : Store) : Store :=
  match createBook currentYear i cand st with
  | .ok (st', _) => st'
  | .error _ => st

/-- The store the caller holds after an update. -/
def storeAfterUpdate (currentYear : Int) (i : Identity) (bid : Nat)
    (cand : BookCandidate) (st : Store) : Store :=
  match updateBook currentYear i bid cand st with
  | .ok (st', _) => st'
  | .error _ => st

/-- The store the caller holds after a delete. -/
def storeAfterDelete (i : Identity) (bid : Nat) (st : Store) : Store :=
  match deleteBook i bid st with
  | .ok st' => st'
  | .error _ => st

/-! ### Well-formedness, spec-side predicates, sample data -/

/-- Title order with ties broken by ascending identifier (the tie-break
the spec asks for). -/
def lexTI (a b : Book) : Prop :=
  a.title < b.title ∨ (a.title = b.title ∧ a.id < b.id)

/-- A book for the ordering-tie case. -/
def tbook1 : Book := ⟨1, "Same Title", 2020, 1⟩

/-- A second book with the identical title. -/
def tbook2 : Book := ⟨2, "Same Title", 2021, 2⟩

/-- Two records whose default sort keys (titles) are equal. -/
def tieBooks : List Book := [tbook1, tbook2]

/-- Written from the spec's words for comparison with the search stage:
"the parameter value (case-insensitive) appears as a substring of the
record's title OR of the related Author's name". -/
def searchMatchesSpec (authors : List Author) (v : String) (b : Book) :
    Bool :=
  containsCI b.title v ||
    (match authorNameOf authors b with
      | none => false
      | some n => containsCI n v)

/-- Author "Author One" from the spec's scenario. -/
def author1 : Author := ⟨1, "Author One"⟩

/-- Author "Author Two" from the spec's scenario. -/
def author2 : Author := ⟨2, "Author Two"⟩

/-- Book "Django for Beginners" (2020, Author One). -/
def book1 : Book := ⟨1, "Django for Beginners", 2020, 1⟩

/-- Book "Advanced Python" (2021, Author Two). -/
def book2 : Book := ⟨2, "Advanced Python", 2021, 2⟩

/-- The spec's two-author list. -/
def sampleAuthors : List Author := [author1, author2]

/-- The spec's two-book list. -/
def sampleBooks : List Book := [book1, book2]

/-- The spec's scenario store. -/
def sampleStore : Store := ⟨sampleAuthors, sampleBooks⟩

/-! ### Helper lemmas -/

theorem filterRun_mem (p : String → Book → Bool) :
    ∀ (ts : List String) (l : List Book) (b : Book),
      (b ∈ ts.foldl (fun bs t => bs.filter (p t)) l) ↔
        b ∈ l ∧ ∀ t ∈ ts, p t b = true := by
  intro ts
  induction ts with
  | nil => intro l b; simp
  | cons t ts ih =>
      intro l b
      simp only [List.foldl_cons]
      rw [ih]
      simp [List.mem_filter, and_assoc]

theorem filterRun_sublist (p : String → Book → Bool) :
    ∀ (ts : List String) (l : List Book),
      List.Sublist (ts.foldl (fun bs t => bs.filter (p t)) l) l := by
  intro ts
  induction ts with
  | nil => intro l; exact List.Sublist.refl l
  | cons t ts ih =>
      intro l
      simp only [List.foldl_cons]
      exact (ih _).trans (List.filter_sublist l)

theorem filter_swap (q r : Book → Bool) (l : List Book) :
    (l.filter q).filter r = (l.filter r).filter q := by
  rw [List.filter_filter, List.filter_filter]
  exact List.filter_congr (fun a _ => Bool.and_comm _ _)

theorem filterRun_filter_comm (p : String → Book → Bool) (q : Book → Bool) :
    ∀ (ts : List String) (l : List Book),
      ts.foldl (fun bs t => bs.filter (p t)) (l.filter q) =
        (ts.foldl (fun bs t => bs.filter (p t)) l).filter q := by
  intro ts
  induction ts with
  | nil => intro l; rfl
  | cons t ts ih =>
      intro l
      simp only [List.foldl_cons]
      rw [filter_swap q (p t) l, ih]

theorem searchStage_filter_comm (authors : List Author) (s : Option String)
    (q : Book → Bool) (l : List Book) :
    searchStage authors s (l.filter q) = (searchStage authors s l).filter q := by
  cases s with
  | none => rfl
  | some v => exact filterRun_filter_comm _ q _ l

theorem searchStage_sublist (authors : List Author) (s : Option String)
    (l : List Book) : List.Sublist (searchStage authors s l) l := by
  cases s with
  | none => exact List.Sublist.refl l
  | some v => exact filterRun_sublist _ _ l

theorem matchesTerm_iff (authors : List Author) (t : String) (b : Book) :
    matchesTerm authors t b = true ↔
      containsCI b.title t = true
        ∨ ∃ n, authorNameOf authors b = some n ∧ containsCI n t = true := by
  unfold matchesTerm
  cases h : authorNameOf authors b <;> simp [h]

theorem mem_insertB (le : Book → Book → Bool) (x : Book) :
    ∀ (l : List Book) (b : Book), b ∈ insertB le x l ↔ b = x ∨ b ∈ l := by
  intro l
  induction l with
  | nil => intro b; simp [insertB]
  | cons y ys ih =>
      intro b
      unfold insertB
      by_cases h : le x y = true
      · simp [h]
      · simp only [h]
        simp [ih]
        tauto

theorem mem_isortBy (le : Book → Book → Bool) :
    ∀ (l : List Book) (b : Book), b ∈ isortBy le l ↔ b ∈ l := by
  intro l
  induction l with
  | nil => intro b; simp [isortBy]
  | cons x xs ih =>
      intro b
      simp [isortBy, mem_insertB, ih]

theorem cmpCharList_lt :
    ∀ (as bs : List Char), cmpCharList as bs = .lt ↔ List.Lex (· < ·) as bs := by
  intro as
  induction as with
  | nil =>
      intro bs
      cases bs with
      | nil => simp [cmpCharList]
      | cons b bs => simp [cmpCharList]; exact List.Lex.nil
  | cons a as ih =>
      intro bs
      cases bs with
      | nil => simp [cmpCharList]
      | cons b bs =>
          show (cmpChar a b).then (cmpCharList as bs) = .lt ↔ _
          rcases lt_trichotomy a b with h | h | h
          · have hc : cmpChar a b = .lt := by simp [cmpChar, h]
            rw [hc]
            simp only [Ordering.then]
            simp
            exact List.Lex.rel h
          · subst h
            have hc : cmpChar a a = .eq := by simp [cmpChar]
            rw [hc]
            show cmpCharList as bs = .lt ↔ _
            rw [ih]
            exact (List.Lex.cons_iff).symm
          · have hna : ¬ a < b := lt_asymm h
            have hc : cmpChar a b = .gt := by simp [cmpChar, hna, h]
            rw [hc]
            show Ordering.gt = .lt ↔ _
            constructor
            · intro hcontra; exact absurd hcontra (by simp)
            · intro hl
              cases hl with
              | cons h' => exact absurd h (lt_irrefl _)
              | rel h' => exact absurd h' hna

theorem cmpCharList_gt :
    ∀ (as bs : List Char), cmpCharList as bs = .gt ↔ List.Lex (· < ·) bs as := by
  intro as
  induction as with
  | nil =>
      intro bs
      cases bs with
      | nil => simp [cmpCharList]
      | cons b bs => simp [cmpCharList]
  | cons a as ih =>
      intro bs
      cases bs with
      | nil =>
          simp [cmpCharList]
          exact List.Lex.nil
      | cons b bs =>
          show (cmpChar a b).then (cmpCharList as bs) = .gt ↔ _
          rcases lt_trichotomy a b with h | h | h
          · have hc : cmpChar a b = .lt := by simp [cmpChar, h]
            rw [hc]
            show Ordering.lt = .gt ↔ _
            constructor
            · intro hcontra; exact absurd hcontra (by simp)
            · intro hl
              cases hl with
              | cons h' => exact absurd h (lt_irrefl _)
              | rel h' => exact absurd h' (lt_asymm h)
          · subst h
            have hc : cmpChar a a = .eq := by simp [cmpChar]
            rw [hc]
            show cmpCharList as bs = .gt ↔ _
            rw [ih]
            exact (List.Lex.cons_iff).symm
          · have hna : ¬ a < b := lt_asymm h
            have hc : cmpChar a b = .gt := by simp [cmpChar, hna, h]
            rw [hc]
            simp only [Ordering.then]
            simp
            exact List.Lex.rel h

theorem cmpStr_lt_iff (a b : String) : cmpStr a b = .lt ↔ a < b := by
  rw [String.lt_iff_toList_lt]
  exact cmpCharList_lt a.data b.data

theorem cmpStr_gt_iff (a b : String) : cmpStr a b = .gt ↔ b < a := by
  rw [String.lt_iff_toList_lt]
  exact cmpCharList_gt a.data b.data

theorem then_eq_eq {x y : Ordering} : x.then y = .eq ↔ x = .eq ∧ y = .eq := by
  cases x <;> simp [Ordering.then]

theorem then_ne_gt {x y : Ordering} :
    x.then y ≠ .gt ↔ x = .lt ∨ (x = .eq ∧ y ≠ .gt) := by
  cases x <;> simp [Ordering.then]

theorem then_swap (x y : Ordering) : (x.then y).swap = x.swap.then y.swap := by
  cases x <;> rfl

theorem swap_eq_lt {o : Ordering} : o.swap = .lt ↔ o = .gt := by
  cases o <;> simp [Ordering.swap]

theorem swap_eq_eq {o : Ordering} : o.swap = .eq ↔ o = .eq := by
  cases o <;> simp [Ordering.swap]

theorem cmpChar_eq_iff (a b : Char) : cmpChar a b = .eq ↔ a = b := by
  unfold cmpChar
  split_ifs with h1 h2
  · simp [ne_of_lt h1]
  · simp [(ne_of_lt h2).symm]
  · simp [le_antisymm (not_lt.mp h2) (not_lt.mp h1)]

theorem cmpChar_swap (a b : Char) : (cmpChar a b).swap = cmpChar b a := by
  unfold cmpChar
  rcases lt_trichotomy a b with h | rfl | h
  · simp [h, lt_asymm h, Ordering.swap]
  · simp [lt_irrefl a, Ordering.swap]
  · simp [h, lt_asymm h, Ordering.swap]

theorem cmpCharList_eq_iff :
    ∀ (as bs : List Char), cmpCharList as bs = .eq ↔ as = bs := by
  intro as
  induction as with
  | nil => intro bs; cases bs <;> simp [cmpCharList]
  | cons a as ih =>
      intro bs
      cases bs with
      | nil => simp [cmpCharList]
      | cons b bs =>
          show (cmpChar a b).then (cmpCharList as bs) = .eq ↔ _
          rw [then_eq_eq, cmpChar_eq_iff, ih]
          simp

theorem cmpCharList_swap :
    ∀ (as bs : List Char), (cmpCharList as bs).swap = cmpCharList bs as := by
  intro as
  induction as with
  | nil => intro bs; cases bs <;> rfl
  | cons a as ih =>
      intro bs
      cases bs with
      | nil => rfl
      | cons b bs =>
          show ((cmpChar a b).then (cmpCharList as bs)).swap =
            (cmpChar b a).then (cmpCharList bs as)
          rw [then_swap, cmpChar_swap, ih]

theorem cmpStr_eq_iff (a b : String) : cmpStr a b = .eq ↔ a = b := by
  rw [show cmpStr a b = cmpCharList a.data b.data from rfl, cmpCharList_eq_iff]
  exact ⟨fun h => String.toList_inj.mp h, fun h => by rw [h]⟩

theorem cmpStr_swap (a b : String) : (cmpStr a b).swap = cmpStr b a :=
  cmpCharList_swap a.data b.data

theorem cmpInt_lt_iff (a b : Int) : cmpInt a b = .lt ↔ a < b := by
  unfold cmpInt
  split_ifs with h1 h2
  · simp [h1]
  · simp [h1]
  · simp [h1]

theorem cmpInt_gt_iff (a b : Int) : cmpInt a b = .gt ↔ b < a := by
  unfold cmpInt
  split_ifs with h1 h2
  · simp [lt_asymm h1]
  · simp [h2]
  · simp [h2]

theorem cmpInt_eq_iff (a b : Int) : cmpInt a b = .eq ↔ a = b := by
  unfold cmpInt
  split_ifs with h1 h2
  · simp [ne_of_lt h1]
  · simp [(ne_of_lt h2).symm]
  · simp [le_antisymm (not_lt.mp h2) (not_lt.mp h1)]

theorem cmpInt_swap (a b : Int) : (cmpInt a b).swap = cmpInt b a := by
  unfold cmpInt
  rcases lt_trichotomy a b with h | rfl | h
  · simp [h, lt_asymm h, Ordering.swap]
  · simp [lt_irrefl a, Ordering.swap]
  · simp [h, lt_asymm h, Ordering.swap]

theorem cmpTerm_lt_iff (t : OrderTerm) (a b : Book) :
    cmpTerm t a b = .lt ↔ termKeyLt t a b := by
  rcases t with ⟨k, d⟩
  cases k <;> cases d
  · exact cmpStr_lt_iff a.title b.title
  · show (cmpStr a.title b.title).swap = .lt ↔ _
    rw [swap_eq_lt]
    exact cmpStr_gt_iff a.title b.title
  · exact cmpInt_lt_iff _ _
  · show (cmpInt a.publication_year b.publication_year).swap = .lt ↔ _
    rw [swap_eq_lt]
    exact cmpInt_gt_iff _ _

theorem cmpTerm_eq_iff (t : OrderTerm) (a b : Book) :
    cmpTerm t a b = .eq ↔ termKeyEq t a b := by
  rcases t with ⟨k, d⟩
  cases k <;> cases d
  · exact cmpStr_eq_iff a.title b.title
  · show (cmpStr a.title b.title).swap = .eq ↔ _
    rw [swap_eq_eq]
    exact cmpStr_eq_iff a.title b.title
  · exact cmpInt_eq_iff _ _
  · show (cmpInt a.publication_year b.publication_year).swap = .eq ↔ _
    rw [swap_eq_eq]
    exact cmpInt_eq_iff _ _

theorem cmpTerm_swap (t : OrderTerm) (a b : Book) :
    (cmpTerm t a b).swap = cmpTerm t b a := by
  rcases t with ⟨k, d⟩
  cases k <;> cases d
  · exact cmpStr_swap a.title b.title
  · show ((cmpStr a.title b.title).swap).swap =
      (cmpStr b.title a.title).swap
    rw [← cmpStr_swap a.title b.title]
  · exact cmpInt_swap _ _
  · show ((cmpInt a.publication_year b.publication_year).swap).swap =
      (cmpInt b.publication_year a.publication_year).swap
    rw [← cmpInt_swap a.publication_year b.publication_year]

theorem termKeyLt_trans {t : OrderTerm} {a b c : Book}
    (h1 : termKeyLt t a b) (h2 : termKeyLt t b c) : termKeyLt t a c := by
  rcases t with ⟨k, d⟩
  cases k <;> cases d
  · exact lt_trans h1 h2
  · exact lt_trans h2 h1
  · exact lt_trans h1 h2
  · exact lt_trans h2 h1

theorem termKeyEq_trans {t : OrderTerm} {a b c : Book}
    (h1 : termKeyEq t a b) (h2 : termKeyEq t b c) : termKeyEq t a c := by
  rcases t with ⟨k, d⟩
  cases k <;> exact h1.trans h2

theorem termKeyLt_of_lt_of_eq {t : OrderTerm} {a b c : Book}
    (h1 : termKeyLt t a b) (h2 : termKeyEq t b c) : termKeyLt t a c := by
  rcases t with ⟨k, d⟩
  cases k <;> cases d
  · exact lt_of_lt_of_le h1 (le_of_eq h2)
  · exact lt_of_le_of_lt (le_of_eq h2.symm) h1
  · exact lt_of_lt_of_le h1 (le_of_eq h2)
  · exact lt_of_le_of_lt (le_of_eq h2.symm) h1

theorem termKeyLt_of_eq_of_lt {t : OrderTerm} {a b c : Book}
    (h1 : termKeyEq t a b) (h2 : termKeyLt t b c) : termKeyLt t a c := by
  rcases t with ⟨k, d⟩
  cases k <;> cases d
  · exact lt_of_le_of_lt (le_of_eq h1) h2
  · exact lt_of_lt_of_le h2 (le_of_eq h1.symm)
  · exact lt_of_le_of_lt (le_of_eq h1) h2
  · exact lt_of_lt_of_le h2 (le_of_eq h1.symm)

theorem cmpTerms_swap (ts : List OrderTerm) (a b : Book) :
    (cmpTerms ts a b).swap = cmpTerms ts b a := by
  induction ts with
  | nil => rfl
  | cons t ts ih =>
      show ((cmpTerm t a b).then (cmpTerms ts a b)).swap =
        (cmpTerm t b a).then (cmpTerms ts b a)
      rw [then_swap, cmpTerm_swap, ih]

theorem cmpTerms_ne_gt_trans {ts : List OrderTerm} {a b c : Book}
    (h1 : cmpTerms ts a b ≠ .gt) (h2 : cmpTerms ts b c ≠ .gt) :
    cmpTerms ts a c ≠ .gt := by
  induction ts with
  | nil => simp [cmpTerms]
  | cons t ts ih =>
      rw [show cmpTerms (t :: ts) a b =
        (cmpTerm t a b).then (cmpTerms ts a b) from rfl, then_ne_gt] at h1
      rw [show cmpTerms (t :: ts) b c =
        (cmpTerm t b c).then (cmpTerms ts b c) from rfl, then_ne_gt] at h2
      rw [show cmpTerms (t :: ts) a c =
        (cmpTerm t a c).then (cmpTerms ts a c) from rfl, then_ne_gt]
      rcases h1 with h1 | ⟨h1e, h1r⟩
      · rcases h2 with h2 | ⟨h2e, h2r⟩
        · exact Or.inl ((cmpTerm_lt_iff t a c).mpr
            (termKeyLt_trans ((cmpTerm_lt_iff t a b).mp h1)
              ((cmpTerm_lt_iff t b c).mp h2)))
        · exact Or.inl ((cmpTerm_lt_iff t a c).mpr
            (termKeyLt_of_lt_of_eq ((cmpTerm_lt_iff t a b).mp h1)
              ((cmpTerm_eq_iff t b c).mp h2e)))
      · rcases h2 with h2 | ⟨h2e, h2r⟩
        · exact Or.inl ((cmpTerm_lt_iff t a c).mpr
            (termKeyLt_of_eq_of_lt ((cmpTerm_eq_iff t a b).mp h1e)
              ((cmpTerm_lt_iff t b c).mp h2)))
        · exact Or.inr ⟨(cmpTerm_eq_iff t a c).mpr
            (termKeyEq_trans ((cmpTerm_eq_iff t a b).mp h1e)
              ((cmpTerm_eq_iff t b c).mp h2e)),
            ih h1r h2r⟩

theorem leTerms_true_iff (ts : List OrderTerm) (a b : Book) :
    leTerms ts a b = true ↔ cmpTerms ts a b ≠ .gt := by
  unfold leTerms
  cases h : cmpTerms ts a b <;> simp

theorem leTerms_total (ts : List OrderTerm) (a b : Book) :
    leTerms ts a b = true ∨ leTerms ts b a = true := by
  rw [leTerms_true_iff, leTerms_true_iff]
  by_cases h : cmpTerms ts a b = .gt
  · right
    rw [← cmpTerms_swap ts a b, h]
    simp [Ordering.swap]
  · exact Or.inl h

theorem leTerms_trans {ts : List OrderTerm} {a b c : Book}
    (h1 : leTerms ts a b = true) (h2 : leTerms ts b c = true) :
    leTerms ts a c = true := by
  rw [leTerms_true_iff] at h1 h2 ⊢
  exact cmpTerms_ne_gt_trans h1 h2

theorem insertB_pairwise_le (le : Book → Book → Bool)
    (htot : ∀ a b, le a b = true ∨ le b a = true)
    (htrans : ∀ a b c, le a b = true → le b c = true → le a c = true)
    (x : Book) :
    ∀ (l : List Book), l.Pairwise (fun a b => le a b = true) →
      (insertB le x l).Pairwise (fun a b => le a b = true) := by
  intro l
  induction l with
  | nil => intro _; simp [insertB]
  | cons y ys ih =>
      intro hl
      rw [List.pairwise_cons] at hl
      unfold insertB
      by_cases h : le x y = true
      · rw [if_pos h]
        refine List.Pairwise.cons ?_ (List.Pairwise.cons hl.1 hl.2)
        intro z hz
        rcases List.mem_cons.mp hz with rfl | hz'
        · exact h
        · exact htrans x y z h (hl.1 z hz')
      · rw [if_neg h]
        have hyx : le y x = true := by
          rcases htot x y with h' | h'
          · exact absurd h' h
          · exact h'
        refine List.Pairwise.cons ?_ (ih hl.2)
        intro z hz
        rcases (mem_insertB le x ys z).mp hz with rfl | hz'
        · exact hyx
        · exact hl.1 z hz'

theorem isortBy_pairwise_le (le : Book → Book → Bool)
    (htot : ∀ a b, le a b = true ∨ le b a = true)
    (htrans : ∀ a b c, le a b = true → le b c = true → le a c = true) :
    ∀ (l : List Book),
      (isortBy le l).Pairwise (fun a b => le a b = true) := by
  intro l
  induction l with
  | nil => simp [isortBy]
  | cons x xs ih => exact insertB_pairwise_le le htot htrans x _ ih

theorem insertB_perm (le : Book → Book → Bool) (x : Book) :
    ∀ (l : List Book), (insertB le x l).Perm (x :: l) := by
  intro l
  induction l with
  | nil => exact List.Perm.refl _
  | cons y ys ih =>
      unfold insertB
      by_cases h : le x y = true
      · rw [if_pos h]
      · rw [if_neg h]
        exact (ih.cons y).trans (List.Perm.swap x y ys)

theorem isortBy_perm (le : Book → Book → Bool) :
    ∀ (l : List Book), (isortBy le l).Perm l := by
  intro l
  induction l with
  | nil => exact List.Perm.refl _
  | cons x xs ih =>
      exact (insertB_perm le x (isortBy le xs)).trans (ih.cons x)

theorem orderStage_admissible (ts : List OrderTerm) (l : List Book) :
    orderStageAdmissible ts l (orderStage ts l) := by
  constructor
  · exact isortBy_perm (leTerms ts) l
  · have h := isortBy_pairwise_le (leTerms ts) (leTerms_total ts)
      (fun a b c hab hbc => leTerms_trans hab hbc) l
    exact h.imp (fun hab => (leTerms_true_iff ts _ _).mp hab)

/-! ### Claim theorems -/

/-- C1 (amended): the list query pipeline applies its three stages in the
fixed order filter, then search, then order, with the search stage
operating on the already-filtered set; however, because filter and search
are both pointwise restrictions, applying search to the full set before
filtering always yields the same result set as the pipeline's
filter-then-search — no input distinguishes the two orders. -/
theorem pipeline_stage_order_and_commute :
    (∀ (authors : List Author) (p : QueryParams) (books : List Book),
        pipeline authors p books =
          orderStage (getOrdering p.ordering)
            (searchStage authors p.search (filterStage p books)))
    ∧ (∀ (authors : List Author) (p : QueryParams) (books : List Book),
        searchStage authors p.search (filterStage p books) =
          filterStage p (searchStage authors p.search books)) := by
  constructor
  · intro authors p books; rfl
  · intro authors p books
    exact searchStage_filter_comm authors p.search (filterPred p) books

/-- The parameters of the spec's reorder example: filter author=1 with
search=Two. -/
def paramsC1 : QueryParams := { author := some 1, search := some "Two" }

/-- C1 counterexample: at the spec's own example (search "Two", filter
author=1 over the scenario store), searching the full set first and then
filtering produces exactly the pipeline's output (both are empty), so the
claimed difference does not occur. -/
theorem pipeline_swap_example_agrees :
    orderStage (getOrdering paramsC1.ordering)
        (filterStage paramsC1 (searchStage sampleAuthors paramsC1.search sampleBooks))
      = pipeline sampleAuthors paramsC1 sampleBooks
    ∧ pipeline sampleAuthors paramsC1 sampleBooks = [] := by
  constructor
  · rfl
  · rfl

/-- C6: the filter stage keeps exactly the records of the input whose
fields equal the present filter parameters — title as an exact full-string
match, author and publication_year as integer equality. -/
theorem filterStage_mem_iff (p : QueryParams) (books : List Book) (b : Book) :
    b ∈ filterStage p books ↔
      b ∈ books
      ∧ (∀ t, p.title = some t → b.title = t)
      ∧ (∀ a, p.author = some a → b.author = a)
      ∧ (∀ y, p.publication_year = some y → b.publication_year = y) := by
  rcases p with ⟨pt, pa, py, ps, po⟩
  unfold filterStage filterPred
  cases pt <;> cases pa <;> cases py <;>
    simp [List.mem_filter, and_assoc]

/-- C7 (amended): the search stage splits the parameter value on
whitespace and commas into terms and keeps exactly the records where every
term appears case-insensitively as a substring of the title or of the
related author's name; in particular search=django keeps "Django for
Beginners". -/
theorem searchStage_term_semantics :
    (∀ (authors : List Author) (v : String) (books : List Book) (b : Book),
        b ∈ searchStage authors (some v) books ↔
          b ∈ books ∧ ∀ t ∈ getSearchTerms v,
            (containsCI b.title t = true
              ∨ ∃ n, authorNameOf authors b = some n ∧ containsCI n t = true))
    ∧ book1 ∈ searchStage sampleAuthors (some "django") sampleBooks := by
  constructor
  · intro authors v books b
    rw [show searchStage authors (some v) books =
          (getSearchTerms v).foldl
            (fun bs t => bs.filter (matchesTerm authors t)) books from rfl]
    rw [filterRun_mem]
    simp only [matchesTerm_iff]
  · decide

/-- C7 counterexample: for the two-term query search="Beginners Django",
the search stage keeps "Django for Beginners" even though the parameter
value as a whole is not a case-insensitive substring of the title or of
the author's name, contradicting the whole-value reading of the claim. -/
theorem search_whole_value_counterexample :
    book1 ∈ searchStage sampleAuthors (some "Beginners Django") sampleBooks
    ∧ searchMatchesSpec sampleAuthors "Beginners Django" book1 = false := by
  constructor
  · decide
  · rfl

/-- C4 (amended): an ordering parameter none of whose comma-separated
entries is a recognized ordering field is silently ignored — the list
operation still succeeds and returns exactly the result it returns with no
ordering parameter (the default title ordering); no error is raised. -/
theorem ordering_unrecognized_ignored (i : Identity) (s : String)
    (p : QueryParams) (st : Store) (hp : p.ordering = some s)
    (h : removeInvalidFields (splitOrdering s) = []) :
    (∃ l, listBooks i p st = .ok l)
    ∧ listBooks i p st = listBooks i { p with ordering := none } st := by
  constructor
  · exact ⟨_, rfl⟩
  · have hord : getOrdering p.ordering = getOrdering none := by
      rw [hp]
      show (match removeInvalidFields (splitOrdering s) with
            | [] => defaultOrdering
            | t :: ts => t :: ts) = defaultOrdering
      rw [h]
    unfold listBooks pipeline
    rw [hord]
    rfl

/-- Witness for C4's amended theorem at ordering=isbn over the scenario
store. -/
theorem ordering_unrecognized_ignored_witness :
    (∃ l, listBooks .anonymous { ordering := some "isbn" } sampleStore = .ok l)
    ∧ listBooks .anonymous { ordering := some "isbn" } sampleStore =
        listBooks .anonymous { ordering := none } sampleStore :=
  ordering_unrecognized_ignored .anonymous "isbn"
    { ordering := some "isbn" } sampleStore rfl (by decide)

/-- The unrecognized ordering parameter of the C4 counterexample. -/
def paramsC4 : QueryParams := { ordering := some "isbn" }

/-- C4 counterexample: the list request ordering=isbn is not rejected —
it succeeds and returns the default-ordered sequence, identical to the
result with no ordering parameter, so the unrecognized field is silently
ignored rather than answered with a BadQuery error. -/
theorem ordering_unrecognized_not_rejected :
    listBooks .anonymous paramsC4 sampleStore =
      .ok [serializeBook book2, serializeBook book1]
    ∧ listBooks .anonymous paramsC4 sampleStore =
        listBooks .anonymous {} sampleStore := by
  constructor
  · show Except.ok ((pipeline sampleStore.authors paramsC4 sampleStore.books).map
        serializeBook) = Except.ok [serializeBook book2, serializeBook book1]
    exact congrArg Except.ok (by decide)
  · show Except.ok ((pipeline sampleStore.authors paramsC4 sampleStore.books).map
        serializeBook) =
      Except.ok ((pipeline sampleStore.authors {} sampleStore.books).map
        serializeBook)
    exact congrArg Except.ok (by decide)

theorem validateCandidate_not_ok (y : Int) (st : Store) (cand : BookCandidate)
    (h : y < cand.publication_year) :
    ∀ c, validateCandidate y st cand ≠ .ok c := by
  intro c
  unfold validateCandidate
  split_ifs with h1 h2 h3
  · simp
  · simp
  · simp
  · unfold validate_publication_year
    rw [if_pos h]
    simp

theorem createBook_not_ok_of_invalid_year (y : Int) (i : Identity)
    (cand : BookCandidate) (st : Store) (h : y < cand.publication_year) :
    ∀ r, createBook y i cand st ≠ .ok r := by
  intro r
  cases i with
  | anonymous => simp [createBook]
  | authenticated =>
      unfold createBook
      cases hv : validateCandidate y st cand with
      | error e => simp
      | ok c => exact absurd hv (validateCandidate_not_ok y st cand h c)

theorem storeAfterCreate_of_invalid_year (y : Int) (i : Identity)
    (cand : BookCandidate) (st : Store) (h : y < cand.publication_year) :
    storeAfterCreate y i cand st = st := by
  unfold storeAfterCreate
  cases hc : createBook y i cand st with
  | error e => rfl
  | ok r => exact absurd hc (createBook_not_ok_of_invalid_year y i cand st h r)

theorem updateBook_not_ok_of_invalid_year (y : Int) (i : Identity) (bid : Nat)
    (cand : BookCandidate) (st : Store) (h : y < cand.publication_year) :
    ∀ r, updateBook y i bid cand st ≠ .ok r := by
  intro r
  cases i with
  | anonymous => simp [updateBook]
  | authenticated =>
      unfold updateBook
      cases hf : st.books.find? (fun b => b.id == bid) with
      | none => simp
      | some b0 =>
          cases hv : validateCandidate y st cand with
          | error e => simp
          | ok c => exact absurd hv (validateCandidate_not_ok y st cand h c)

theorem storeAfterUpdate_of_invalid_year (y : Int) (i : Identity) (bid : Nat)
    (cand : BookCandidate) (st : Store) (h : y < cand.publication_year) :
    storeAfterUpdate y i bid cand st = st := by
  unfold storeAfterUpdate
  cases hc : updateBook y i bid cand st with
  | error e => rfl
  | ok r => exact absurd hc (updateBook_not_ok_of_invalid_year y i bid cand st h r)

theorem validateCandidate_ok_inv (y : Int) (st : Store) (cand c : BookCandidate)
    (h : validateCandidate y st cand = .ok c) :
    c = cand ∧ cand.publication_year ≤ y := by
  unfold validateCandidate at h
  split_ifs at h with h1 h2 h3
  unfold validate_publication_year at h
  split_ifs at h with h4
  simp at h
  exact ⟨h.symm, not_lt.mp h4⟩

theorem createBook_ok_inv (y : Int) (i : Identity) (cand : BookCandidate)
    (st st' : Store) (sb : SerializedBook)
    (h : createBook y i cand st = .ok (st', sb)) :
    st'.authors = st.authors
    ∧ st'.books = st.books ++
        [{ id := nextBookId st, title := cand.title,
           publication_year := cand.publication_year, author := cand.author }]
    ∧ cand.publication_year ≤ y := by
  cases i with
  | anonymous => simp [createBook] at h
  | authenticated =>
      unfold createBook at h
      cases hv : validateCandidate y st cand with
      | error e => rw [hv] at h; simp at h
      | ok c =>
          rw [hv] at h
          obtain ⟨rfl, hy⟩ := validateCandidate_ok_inv y st cand c hv
          injection h with h2
          have h3 := congrArg Prod.fst h2
          simp only at h3
          refine ⟨?_, ?_, hy⟩
          · rw [← h3]
          · rw [← h3]

theorem updateBook_ok_inv (y : Int) (i : Identity) (bid : Nat)
    (cand : BookCandidate) (st st' : Store) (sb : SerializedBook)
    (h : updateBook y i bid cand st = .ok (st', sb)) :
    st'.authors = st.authors
    ∧ st'.books = st.books.map
        (fun x => if x.id == bid then
          { id := bid, title := cand.title,
            publication_year := cand.publication_year,
            author := cand.author } else x)
    ∧ cand.publication_year ≤ y := by
  cases i with
  | anonymous => simp [updateBook] at h
  | authenticated =>
      unfold updateBook at h
      cases hf : st.books.find? (fun b => b.id == bid) with
      | none => rw [hf] at h; simp at h
      | some b0 =>
          rw [hf] at h
          cases hv : validateCandidate y st cand with
          | error e => rw [hv] at h; simp at h
          | ok c =>
              rw [hv] at h
              obtain ⟨rfl, hy⟩ := validateCandidate_ok_inv y st cand c hv
              injection h with h2
              have h3 := congrArg Prod.fst h2
              simp only at h3
              refine ⟨?_, ?_, hy⟩
              · rw [← h3]
              · rw [← h3]

/-- C2: a Book candidate fails the publication-year rule — with a
field-level error carrying exactly the message "Publication year cannot be
in the future." — if and only if its publication_year is strictly greater
than the current year; a year at or below the current year passes, and a
candidate failing the rule is never persisted by create or update. -/
theorem publication_year_rule (y v : Int) :
    (validate_publication_year y v =
        .error "Publication year cannot be in the future." ↔ y < v)
    ∧ (v ≤ y → validate_publication_year y v = .ok v)
    ∧ (∀ (i : Identity) (cand : BookCandidate) (st : Store),
        y < cand.publication_year →
          storeAfterCreate y i cand st = st
          ∧ (∀ r, createBook y i cand st ≠ .ok r))
    ∧ (∀ (i : Identity) (bid : Nat) (cand : BookCandidate) (st : Store),
        y < cand.publication_year →
          storeAfterUpdate y i bid cand st = st
          ∧ (∀ r, updateBook y i bid cand st ≠ .ok r)) := by
  refine ⟨?_, ?_, ?_, ?_⟩
  · unfold validate_publication_year
    split_ifs with h
    · simp [h]
    · simp only [not_lt] at h
      constructor
      · intro hcontra; exact absurd hcontra (by simp)
      · intro hlt; exact absurd hlt (not_lt.mpr h)
  · intro hv
    unfold validate_publication_year
    rw [if_neg (not_lt.mpr hv)]
  · intro i cand st h
    exact ⟨storeAfterCreate_of_invalid_year y i cand st h,
      createBook_not_ok_of_invalid_year y i cand st h⟩
  · intro i bid cand st h
    exact ⟨storeAfterUpdate_of_invalid_year y i bid cand st h,
      updateBook_not_ok_of_invalid_year y i bid cand st h⟩

/-- Witness for C2 at the current year 2024: year 2024 passes and a
year-2025 candidate is rejected with the store untouched. -/
theorem publication_year_rule_witness :
    validate_publication_year 2024 2024 = .ok 2024
    ∧ (storeAfterCreate 2024 .authenticated ⟨"Test Book", 2025, 1⟩ sampleStore
          = sampleStore
        ∧ ∀ r, createBook 2024 .authenticated ⟨"Test Book", 2025, 1⟩
            sampleStore ≠ .ok r) :=
  ⟨(publication_year_rule 2024 2024).2.1 (by decide),
    (publication_year_rule 2024 2025).2.2.1 .authenticated
      ⟨"Test Book", 2025, 1⟩ sampleStore (by decide)⟩

/-- C3: the access-control gate — list and retrieve behave identically for
anonymous and authenticated callers (list always succeeds), while every
write operation invoked anonymously is rejected with the
authentication-required error regardless of its payload (so before any
validation or lookup), leaving the store unchanged. -/
theorem access_control_gate :
    (∀ (i : Identity) (p : QueryParams) (st : Store),
        listBooks i p st = listBooks .anonymous p st
        ∧ ∃ l, listBooks i p st = .ok l)
    ∧ (∀ (i : Identity) (bid : Nat) (st : Store),
        retrieveBook i bid st = retrieveBook .anonymous bid st)
    ∧ (∀ (y : Int) (cand : BookCandidate) (st : Store),
        createBook y .anonymous cand st = .error .authenticationRequired
        ∧ storeAfterCreate y .anonymous cand st = st)
    ∧ (∀ (y : Int) (bid : Nat) (cand : BookCandidate) (st : Store),
        updateBook y .anonymous bid cand st = .error .authenticationRequired
        ∧ storeAfterUpdate y .anonymous bid cand st = st)
    ∧ (∀ (bid : Nat) (st : Store),
        deleteBook .anonymous bid st = .error .authenticationRequired
        ∧ storeAfterDelete .anonymous bid st = st) :=
  ⟨fun _ _ _ => ⟨rfl, ⟨_, rfl⟩⟩,
    fun _ _ _ => rfl,
    fun _ _ _ => ⟨rfl, rfl⟩,
    fun _ _ _ _ => ⟨rfl, rfl⟩,
    fun _ _ => ⟨rfl, rfl⟩⟩

/-- C8: serialize_book is total and flat — it returns exactly
{id, title, publication_year, author-as-identifier} — and serialize_author
is total and returns {id, name, books}, where books is the author's owned
Books in the store's insertion order (a sublist of the store, not
re-sorted), each in the flat serialized form. -/
theorem serializers_shape (st : Store) (a : Author) (b : Book) :
    serializeBook b = ⟨b.id, b.title, b.publication_year, b.author⟩
    ∧ (serializeAuthor st a).id = a.id
    ∧ (serializeAuthor st a).name = a.name
    ∧ (serializeAuthor st a).books =
        (st.books.filter (fun bk => bk.author == a.id)).map serializeBook
    ∧ List.Sublist (st.books.filter (fun bk => bk.author == a.id)) st.books :=
  ⟨rfl, rfl, rfl, rfl, List.filter_sublist st.books⟩

/-- C5 (amended): for every list request, the pipeline output satisfies
the program's full ordering contract — it is a permutation of the
filtered-and-searched record set, sorted by the effective ordering keys,
and with no ordering parameter the effective keys are the default
ascending title; the serialized response is that sequence.  The code adds
no identifier key, so the relative order of records with equal keys — and
with it sequence-level determinism and the ascending-identifier
tie-break — is left to the store's retrieval order, not guaranteed. -/
theorem pipeline_ordering_contract (p : QueryParams) (st : Store) :
    orderStageAdmissible (getOrdering p.ordering)
      (searchStage st.authors p.search (filterStage p st.books))
      (pipeline st.authors p st.books)
    ∧ getOrdering none = defaultOrdering
    ∧ ∀ (i : Identity),
        listBooks i p st =
          .ok ((pipeline st.authors p st.books).map serializeBook) :=
  ⟨orderStage_admissible _ _, rfl, fun _ => rfl⟩

/-- C5 counterexample: over a store with two same-title records and no
ordering parameter, the ordering contract admits two different output
sequences at identical parameters and identical store state, and one of
them breaks the ascending-identifier tie order — the program determines
neither the sequence nor the tie-break. -/
theorem ordering_tie_not_determined :
    orderStageAdmissible defaultOrdering tieBooks [tbook1, tbook2]
    ∧ orderStageAdmissible defaultOrdering tieBooks [tbook2, tbook1]
    ∧ ([tbook1, tbook2] : List Book) ≠ [tbook2, tbook1]
    ∧ ¬ ([tbook2, tbook1] : List Book).Pairwise lexTI := by
  refine ⟨⟨List.Perm.refl _, by decide⟩,
    ⟨List.Perm.swap tbook1 tbook2 [], by decide⟩, by decide, ?_⟩
  intro hp
  rcases List.pairwise_cons.mp hp with ⟨h1, _⟩
  rcases h1 tbook1 (List.mem_singleton.mpr rfl) with h2 | ⟨heq, hid⟩
  · have ht : tbook2.title = tbook1.title := rfl
    rw [ht] at h2
    exact lt_irrefl _ h2
  · exact absurd hid (by decide)

/-- C9: the publication-year invariant is preserved — if every Book in the
store satisfies publication_year ≤ current year, then after any successful
create or update every Book still does (the new or rewritten record passed
validation; pre-existing data is untouched by the rule, so the invariant
is conditional on the pre-state, not retroactive). -/
theorem publication_year_invariant (y : Int) :
    (∀ (i : Identity) (cand : BookCandidate) (st st' : Store)
        (sb : SerializedBook),
        createBook y i cand st = .ok (st', sb) →
        (∀ b ∈ st.books, b.publication_year ≤ y) →
        ∀ b ∈ st'.books, b.publication_year ≤ y)
    ∧ (∀ (i : Identity) (bid : Nat) (cand : BookCandidate) (st st' : Store)
        (sb : SerializedBook),
        updateBook y i bid cand st = .ok (st', sb) →
        (∀ b ∈ st.books, b.publication_year ≤ y) →
        ∀ b ∈ st'.books, b.publication_year ≤ y) := by
  constructor
  · intro i cand st st' sb hok hinv b hb
    obtain ⟨_, hbooks, hy⟩ := createBook_ok_inv y i cand st st' sb hok
    rw [hbooks] at hb
    rcases List.mem_append.mp hb with hb | hb
    · exact hinv b hb
    · rw [List.mem_singleton] at hb
      subst hb
      exact hy
  · intro i bid cand st st' sb hok hinv b hb
    obtain ⟨_, hbooks, hy⟩ := updateBook_ok_inv y i bid cand st st' sb hok
    rw [hbooks] at hb
    obtain ⟨x, hx, hfx⟩ := List.mem_map.mp hb
    by_cases hxb : (x.id == bid) = true
    · rw [if_pos hxb] at hfx
      subst hfx
      exact hy
    · rw [if_neg hxb] at hfx
      subst hfx
      exact hinv x hx

/-- The store after the witness create: the scenario store plus a new
2022 record. -/
def storeC9 : Store :=
  ⟨sampleAuthors, sampleBooks ++ [⟨3, "Test Book", 2022, 1⟩]⟩

/-- Witness for C9: creating a 2022 book in 2024 keeps every stored year
at or below 2024. -/
theorem publication_year_invariant_witness :
    ∀ b ∈ storeC9.books, b.publication_year ≤ 2024 :=
  (publication_year_invariant 2024).1 .authenticated ⟨"Test Book", 2022, 1⟩
    sampleStore storeC9 ⟨3, "Test Book", 2022, 1⟩ rfl (by decide)

/-- C10: an authenticated delete of an existing Book identifier removes
exactly the Book with that identifier — every surviving record was already
in the store with a different identifier, every other Book survives, and
the Author records are untouched. -/
theorem delete_frame (bid : Nat) (st st' : Store)
    (h : deleteBook .authenticated bid st = .ok st') :
    (∀ b ∈ st'.books, b ∈ st.books ∧ b.id ≠ bid)
    ∧ (∀ b ∈ st.books, b.id ≠ bid → b ∈ st'.books)
    ∧ st'.authors = st.authors := by
  unfold deleteBook at h
  cases hf : st.books.find? (fun b => b.id == bid) with
  | none => rw [hf] at h; simp at h
  | some b0 =>
      rw [hf] at h
      injection h with h2
      subst h2
      refine ⟨?_, ?_, rfl⟩
      · intro b hb
        have hb' : b ∈ st.books.filter (fun x => x.id != bid) := hb
        rw [List.mem_filter] at hb'
        refine ⟨hb'.1, ?_⟩
        simpa using hb'.2
      · intro b hb hne
        show b ∈ st.books.filter (fun x => x.id != bid)
        rw [List.mem_filter]
        exact ⟨hb, by simpa using hne⟩

/-- The store after the witness delete: only book2 remains. -/
def storeC10 : Store := ⟨sampleAuthors, [book2]⟩

/-- Witness for C10: deleting id 1 from the scenario store removes
exactly "Django for Beginners". -/
theorem delete_frame_witness :
    (∀ b ∈ storeC10.books, b ∈ sampleStore.books ∧ b.id ≠ 1)
    ∧ (∀ b ∈ sampleStore.books, b.id ≠ 1 → b ∈ storeC10.books)
    ∧ storeC10.authors = sampleStore.authors :=
  delete_frame 1 sampleStore storeC10 rfl
